import Mathlib

/-!
Verification of the Pulse browser orchestration core (Electron main process,
`src/electron/src/index.ts`, plus the transport framing in
`src/electron/src/App.tsx`).

The tab registry (`tabs : Map<number, Tab>`, `activeTabId`, `nextTabId`) is
embedded as an explicit state record; JavaScript `Map` iteration order is
insertion order, so the map is embedded as an association list kept in
insertion order, with `Map.delete` becoming a filter on the (unique) key.
-/

namespace Pulse

/-- One browsing tab (`interface Tab` in `index.ts`, minus the opaque
`WebContentsView` handle, which carries no state the manager reads). -/
structure Tab where
  id : Nat
  url : String
  title : String
  deriving Repr, DecidableEq

/-- The tab-manager state: module-level mutable variables of `index.ts`
(`tabs`, `activeTabId`, `nextTabId`).  `tabs` is listed in insertion order,
as a JavaScript `Map` iterates. -/
structure MgrState where
  tabs : List Tab
  activeTabId : Option Nat
  nextTabId : Nat
  deriving Repr, DecidableEq

/-- Initial state of the module-level variables: empty map, no active tab,
`nextTabId = 1`. -/
def initState : MgrState := { tabs := [], activeTabId := none, nextTabId := 1 }

/-- `tabs.get(id)` on the insertion-ordered association list. -/
def findTab (l : List Tab) (id : Nat) : Option Tab :=
  l.find? (fun t => t.id == id)

/-- `switchToTab(id)` from `index.ts`: if the id names an existing tab it
becomes the active tab (view visibility and bounds are display-only and not
modelled); an unknown id is a no-op. -/
def switchToTab (s : MgrState) (id : Nat) : MgrState :=
  match findTab s.tabs id with
  | none => s
  | some _ => { s with activeTabId := some id }

/-- `createTab(url)` from `index.ts`: allocates `id = nextTabId++`, inserts
the tab (title `"New Tab"`) at the end of the map, then `switchToTab(id)`.
URL loading is asynchronous display work and not part of manager state. -/
def createTab (s : MgrState) (url : String) : MgrState :=
  let id := s.nextTabId
  let tab : Tab := { id := id, url := url, title := "New Tab" }
  switchToTab { s with tabs := s.tabs ++ [tab], nextTabId := id + 1 } id

/-- `closeTab(id)` from `index.ts`: unknown id is a no-op; otherwise the tab
is deleted from the map, and if it was the active tab, activation falls to
`remaining[remaining.length - 1]` (the last key in insertion order) via
`switchToTab`, or to `null` when no tab remains. -/
def closeTab (s : MgrState) (id : Nat) : MgrState :=
  match findTab s.tabs id with
  | none => s
  | some _ =>
    let tabs' := s.tabs.filter (fun t => t.id ≠ id)
    let s' := { s with tabs := tabs' }
    if s.activeTabId = some id then
      match (tabs'.map Tab.id).getLast? with
      | some lastId => switchToTab s' lastId
      | none => { s' with activeTabId := none }
    else s'

/-- One snapshot row of the `get-tabs` IPC reply. -/
structure TabInfo where
  id : Nat
  url : String
  title : String
  active : Bool
  deriving Repr, DecidableEq

/-- The `get-tabs` IPC handler: maps every tab, in map order, to
`\x7b id, url, title, active: t.id === activeTabId \x7d`. -/
def getTabs (s : MgrState) : List TabInfo :=
  s.tabs.map (fun t =>
    { id := t.id, url := t.url, title := t.title
      active := decide (s.activeTabId = some t.id) })

/-- Result shape returned by the `switch-tab` / `close-tab` IPC handlers. -/
structure IpcResult where
  success : Bool
  deriving Repr, DecidableEq

/-- The `switch-tab` IPC handler: calls `switchToTab` and returns
`\x7b success: true \x7d` unconditionally. -/
def switchTabHandler (s : MgrState) (id : Nat) : MgrState × IpcResult :=
  (switchToTab s id, { success := true })

/-- The `close-tab` IPC handler: calls `closeTab` and returns
`\x7b success: true \x7d` unconditionally. -/
def closeTabHandler (s : MgrState) (id : Nat) : MgrState × IpcResult :=
  (closeTab s id, { success := true })

/-- The manager operations reachable from the UI/agent:
open (`create-tab`), activate (`switch-tab`), close (`close-tab`). -/
inductive Op where
  | create (url : String)
  | activate (id : Nat)
  | close (id : Nat)
  deriving Repr, DecidableEq

/-- One operation applied to the manager state. -/
def step (s : MgrState) : Op → MgrState
  | Op.create url => createTab s url
  | Op.activate id => switchToTab s id
  | Op.close id => closeTab s id

/-- The state after running a sequence of operations from the empty
initial state. -/
def run (ops : List Op) : MgrState := ops.foldl step initState

/-- The ids handed out by the `create-tab` operations of an operation
sequence, in the order the operations run: each `createTab` assigns
`id = nextTabId++`. -/
def assignedFrom (s : MgrState) : List Op → List Nat
  | [] => []
  | Op.create u :: ops => s.nextTabId :: assignedFrom (createTab s u) ops
  | Op.activate i :: ops => assignedFrom (switchToTab s i) ops
  | Op.close i :: ops => assignedFrom (closeTab s i) ops

/-- The ids assigned over one process lifetime running `ops` from startup. -/
def assignedIds (ops : List Op) : List Nat := assignedFrom initState ops

/-- `sendAudio` in `App.tsx`: the outbound frame is a one-byte header
`0x01` followed by the PCM payload bytes
(`combined.set(header); combined.set(payload, 1)`). -/
def encodeAudioFrame (p : List Nat) : List Nat := 0x01 :: p

/-- `sendScreenshot` in `App.tsx`: the outbound frame sets `view[0] = 0x02`
and `view[i + 1] = payload[i]`, i.e. a `0x02` byte followed by the decoded
screenshot bytes. -/
def encodeImageryFrame (p : List Nat) : List Nat := 0x02 :: p

/-- Modelled from the spec: the receiving side's frame decoder lives in the
backend service, which is not among the repository's source files here; per
the wire contract a binary frame is one discriminator byte followed by the
payload bytes, with message boundaries given by the transport, so decoding
splits the first byte off the rest. -/
def decodeFrame (msg : List Nat) : Option (Nat × List Nat) :=
  match msg with
  | [] => none
  | d :: p => some (d, p)

/-- The argument of the `execute-action` IPC handler: a tag plus optional
fields, exactly the TypeScript parameter shape. -/
structure ActionReq where
  type : String
  x : Option Int := none
  y : Option Int := none
  text : Option String := none
  direction : Option String := none
  amount : Option Int := none
  deriving Repr, DecidableEq

/-- The state of the active tab's web contents that the executor reads:
the document text (as its character sequence) and history availability. -/
structure TabContent where
  docText : List Char
  canGoBack : Bool
  canGoForward : Bool
  deriving Repr, DecidableEq

/-- The result object returned by the `execute-action` handler. -/
structure ExecResult where
  success : Bool
  error : Option String := none
  text : Option (List Char) := none
  deriving Repr, DecidableEq

/-- One synthesized input event (`webContents.sendInputEvent`). -/
inductive InputEvent where
  | mouseDown (x y : Int)
  | mouseUp (x y : Int)
  | keyDown (keyCode : String)
  | charInput (keyCode : String)
  | keyUp (keyCode : String)
  deriving Repr, DecidableEq

/-- One observable side effect the handler performs on the active tab. -/
inductive Effect where
  | input (e : InputEvent)
  | scrollBy (dy : Int)
  | goBack
  | goForward
  | extractTextEval
  deriving Repr, DecidableEq

/-- The `type` action's loop: for each character, a key-down, character,
key-up triple, in input order. -/
def typeEvents : List Char → List Effect
  | [] => []
  | c :: cs =>
    Effect.input (InputEvent.keyDown c.toString)
      :: Effect.input (InputEvent.charInput c.toString)
      :: Effect.input (InputEvent.keyUp c.toString)
      :: typeEvents cs

/-- JavaScript `action.amount || 500`: `0` is falsy in JavaScript, so a
zero amount falls back to the 500 default exactly like an absent one. -/
def amountOr500 : Option Int → Int
  | some v => if v = 0 then 500 else v
  | none => 500

/-- The `execute-action` IPC handler from `index.ts`.  With no active tab it
returns the failure `\x7b success: false, error: 'No active tab' \x7d` and
touches nothing; otherwise it dispatches on `action.type`, producing the
result object and the list of side effects in dispatch order.  Mirrors the
JavaScript truthiness checks (`if (action.text)`, `action.amount || 500`). -/
def executeAction (activeTab : Option TabContent) (a : ActionReq) :
    ExecResult × List Effect :=
  match activeTab with
  | none => ({ success := false, error := some "No active tab" }, [])
  | some tab =>
    if a.type = "click" then
      match a.x, a.y with
      | some x, some y =>
        ({ success := true },
          [Effect.input (InputEvent.mouseDown x y),
           Effect.input (InputEvent.mouseUp x y)])
      | _, _ => ({ success := true }, [])
    else if a.type = "type" then
      match a.text with
      | some t => if t.isEmpty then ({ success := true }, [])
                  else ({ success := true }, typeEvents t.data)
      | none => ({ success := true }, [])
    else if a.type = "scroll" then
      ({ success := true },
        [Effect.scrollBy (if a.direction = some "up"
          then -(amountOr500 a.amount) else amountOr500 a.amount)])
    else if a.type = "enter" then
      ({ success := true },
        [Effect.input (InputEvent.keyDown "Return"),
         Effect.input (InputEvent.keyUp "Return")])
    else if a.type = "back" then
      ({ success := true }, if tab.canGoBack then [Effect.goBack] else [])
    else if a.type = "forward" then
      ({ success := true }, if tab.canGoForward then [Effect.goForward] else [])
    else if a.type = "extract-text" then
      ({ success := true, text := some (tab.docText.take 5000) },
        [Effect.extractTextEval])
    else
      ({ success := false, error := some ("Unknown action: " ++ a.type) }, [])

/-- The state invariant the tab manager maintains: tab ids appear in
strictly increasing (= insertion) order, every id is below the allocator
counter, and the active pointer names an existing tab when set. -/
structure Inv (s : MgrState) : Prop where
  sorted : s.tabs.Pairwise (fun a b => a.id < b.id)
  bounded : ∀ t ∈ s.tabs, t.id < s.nextTabId
  activeMem : ∀ i, s.activeTabId = some i → i ∈ s.tabs.map Tab.id

end Pulse

namespace Pulse

theorem findTab_isSome_of_mem {s : MgrState} {id : Nat}
    (h : id ∈ s.tabs.map Tab.id) : (findTab s.tabs id).isSome := by
  obtain ⟨t, ht, hid⟩ := List.mem_map.mp h
  exact List.find?_isSome.mpr ⟨t, ht, by simp [hid]⟩

theorem findTab_eq_none_of_not_mem {s : MgrState} {id : Nat}
    (h : id ∉ s.tabs.map Tab.id) : findTab s.tabs id = none := by
  apply List.find?_eq_none.mpr
  intro t ht hp
  exact h (List.mem_map.mpr ⟨t, ht, by simpa using hp⟩)

theorem switchToTab_of_mem {s : MgrState} {id : Nat}
    (h : id ∈ s.tabs.map Tab.id) :
    switchToTab s id = { s with activeTabId := some id } := by
  have hsome := findTab_isSome_of_mem h
  cases hfind : findTab s.tabs id with
  | none => rw [hfind] at hsome; simp at hsome
  | some t => simp [switchToTab, hfind]

theorem activeTabId_switchToTab_of_mem {s : MgrState} {id : Nat}
    (h : id ∈ s.tabs.map Tab.id) :
    (switchToTab s id).activeTabId = some id := by
  rw [switchToTab_of_mem h]

theorem switchToTab_of_not_mem {s : MgrState} {id : Nat}
    (h : id ∉ s.tabs.map Tab.id) : switchToTab s id = s := by
  simp [switchToTab, findTab_eq_none_of_not_mem h]

theorem closeTab_of_not_mem {s : MgrState} {id : Nat}
    (h : id ∉ s.tabs.map Tab.id) : closeTab s id = s := by
  simp [closeTab, findTab_eq_none_of_not_mem h]

theorem mem_of_getLast?_eq_some {l : List Nat} {m : Nat}
    (h : l.getLast? = some m) : m ∈ l := by
  have hmem : m ∈ l.getLast? := by rw [h]; rfl
  obtain ⟨hne, heq⟩ := List.mem_getLast?_eq_getLast hmem
  exact heq ▸ List.getLast_mem hne

theorem le_of_getLast?_sorted :
    ∀ {l : List Nat}, l.Sorted (· < ·) →
      ∀ {m : Nat}, l.getLast? = some m → ∀ j ∈ l, j ≤ m := by
  intro l
  induction l with
  | nil => intro _ m hm; simp at hm
  | cons a l ih =>
    intro hs m hm j hj
    cases l with
    | nil =>
      simp at hm hj
      omega
    | cons b l' =>
      rw [List.getLast?_cons_cons] at hm
      have hrest := ih hs.of_cons hm
      have hmem : m ∈ b :: l' := mem_of_getLast?_eq_some hm
      rcases List.mem_cons.mp hj with rfl | hj'
      · exact le_of_lt (List.rel_of_sorted_cons hs m hmem)
      · exact hrest j hj'

theorem keys_sorted {s : MgrState} (h : Inv s) :
    (s.tabs.map Tab.id).Sorted (· < ·) :=
  List.pairwise_map.mpr h.sorted

theorem keys_nodup {s : MgrState} (h : Inv s) :
    (s.tabs.map Tab.id).Nodup :=
  List.Pairwise.imp (fun hab => Nat.ne_of_lt hab) (keys_sorted h)

theorem inv_initState : Inv initState :=
  ⟨List.Pairwise.nil, by simp [initState], by simp [initState]⟩

theorem inv_switchToTab_mem {s : MgrState}
    (hs : s.tabs.Pairwise (fun a b => a.id < b.id))
    (hb : ∀ t ∈ s.tabs, t.id < s.nextTabId) {i : Nat}
    (hm : i ∈ s.tabs.map Tab.id) : Inv (switchToTab s i) := by
  rw [switchToTab_of_mem hm]
  exact ⟨hs, hb, fun j hj => by
    simp only [Option.some.injEq] at hj
    exact hj ▸ hm⟩

theorem inv_switchToTab {s : MgrState} (h : Inv s) (id : Nat) :
    Inv (switchToTab s id) := by
  by_cases hm : id ∈ s.tabs.map Tab.id
  · rw [switchToTab_of_mem hm]
    exact ⟨h.sorted, h.bounded, fun i hi => by
      simp only [Option.some.injEq] at hi
      exact hi ▸ hm⟩
  · rw [switchToTab_of_not_mem hm]
    exact h

theorem inv_createTab {s : MgrState} (h : Inv s) (u : String) :
    Inv (createTab s u) := by
  unfold createTab
  set tab : Tab := { id := s.nextTabId, url := u, title := "New Tab" } with htab
  have hmem : s.nextTabId ∈ (s.tabs ++ [tab]).map Tab.id := by
    simp [htab]
  rw [switchToTab_of_mem hmem]
  refine ⟨?_, ?_, ?_⟩
  · refine List.pairwise_append.mpr ⟨h.sorted, List.pairwise_singleton _ _, ?_⟩
    intro a ha b hb
    have hb' : b = tab := by simpa using hb
    subst hb'
    exact h.bounded a ha
  · intro t ht
    rcases List.mem_append.mp ht with h1 | h2
    · exact Nat.lt_succ_of_lt (h.bounded t h1)
    · have : t = tab := by simpa using h2
      subst this
      exact Nat.lt_succ_self _
  · intro i hi
    simp only [Option.some.injEq] at hi
    exact hi ▸ hmem

theorem inv_closeTab {s : MgrState} (h : Inv s) (id : Nat) :
    Inv (closeTab s id) := by
  cases hfind : findTab s.tabs id with
  | none => simpa [closeTab, hfind] using h
  | some t =>
    have hsorted' : (s.tabs.filter (fun t => t.id ≠ id)).Pairwise
        (fun a b => a.id < b.id) := h.sorted.filter _
    have hbounded' : ∀ u ∈ s.tabs.filter (fun t => t.id ≠ id),
        u.id < s.nextTabId := fun u hu => h.bounded u (List.mem_of_mem_filter hu)
    simp only [closeTab, hfind]
    by_cases hact : s.activeTabId = some id
    · rw [if_pos hact]
      cases hlast : ((s.tabs.filter (fun t => t.id ≠ id)).map Tab.id).getLast? with
      | none =>
        exact ⟨hsorted', hbounded', fun i hi => by simp at hi⟩
      | some lastId =>
        have hm : lastId ∈ (s.tabs.filter (fun t => t.id ≠ id)).map Tab.id :=
          mem_of_getLast?_eq_some hlast
        exact inv_switchToTab_mem hsorted' hbounded' hm
    · rw [if_neg hact]
      refine ⟨hsorted', hbounded', ?_⟩
      intro i hi
      have hi' : i ∈ s.tabs.map Tab.id := h.activeMem i hi
      obtain ⟨u, hu, huid⟩ := List.mem_map.mp hi'
      refine List.mem_map.mpr ⟨u, List.mem_filter.mpr ⟨hu, ?_⟩, huid⟩
      have : i ≠ id := fun he => hact (by rw [← he]; exact hi)
      simpa [huid] using this

theorem inv_step {s : MgrState} (h : Inv s) (op : Op) : Inv (step s op) := by
  cases op with
  | create u => exact inv_createTab h u
  | activate i => exact inv_switchToTab h i
  | close i => exact inv_closeTab h i

theorem inv_foldl :
    ∀ (ops : List Op) (s : MgrState), Inv s → Inv (ops.foldl step s) := by
  intro ops
  induction ops with
  | nil => exact fun s h => h
  | cons op ops ih => exact fun s h => ih (step s op) (inv_step h op)

theorem inv_run (ops : List Op) : Inv (run ops) :=
  inv_foldl ops initState inv_initState

theorem countP_active_eq (s : MgrState) :
    (getTabs s).countP (fun sn => sn.active)
      = s.tabs.countP (fun t => decide (s.activeTabId = some t.id)) := by
  unfold getTabs
  rw [List.countP_map]
  rfl

theorem countP_id_le_one {i : Nat} :
    ∀ {l : List Tab}, (l.map Tab.id).Nodup →
      l.countP (fun t => decide ((some i : Option Nat) = some t.id)) ≤ 1 := by
  intro l
  induction l with
  | nil => intro _; simp
  | cons t l ih =>
    intro hnd
    simp only [List.map_cons, List.nodup_cons] at hnd
    rw [List.countP_cons]
    by_cases hp : (some i : Option Nat) = some t.id
    · have hi : i = t.id := by simpa using hp
      have hzero : l.countP (fun u => decide ((some i : Option Nat) = some u.id)) = 0 := by
        apply List.countP_eq_zero.mpr
        intro u hu
        simp only [decide_eq_true_eq, Option.some.injEq]
        intro he
        exact hnd.1 (List.mem_map.mpr ⟨u, hu, by omega⟩)
      rw [hzero, if_pos (decide_eq_true hp)]
    · have hnp : ¬(decide ((some i : Option Nat) = some t.id) = true) := by simpa using hp
      rw [if_neg hnp]
      have := ih hnd.2
      omega

theorem active_count_le_one {s : MgrState} (h : Inv s) :
    (getTabs s).countP (fun sn => sn.active) ≤ 1 := by
  rw [countP_active_eq]
  cases hact : s.activeTabId with
  | none =>
    have hz : s.tabs.countP (fun t => decide ((none : Option Nat) = some t.id)) = 0 :=
      List.countP_eq_zero.mpr (fun t _ => by simp)
    rw [hz]
    omega
  | some i =>
    exact countP_id_le_one (keys_nodup h)

end Pulse

namespace Pulse

/-- Claim C1: for every sequence of open/activate/close operations from
the empty state, at most one tab is marked active in the `get-tabs`
output, any active row's id equals the manager's `activeTabId` pointer,
and closing the last remaining tab leaves zero active tabs and a null
active pointer. -/
theorem single_active_invariant (ops : List Op) :
    (getTabs (run ops)).countP (fun sn => sn.active) ≤ 1
    ∧ (∀ sn ∈ getTabs (run ops), sn.active = true →
        (run ops).activeTabId = some sn.id)
    ∧ (∀ i, (run ops).tabs.map Tab.id = [i] →
        (getTabs (closeTab (run ops) i)).countP (fun sn => sn.active) = 0
        ∧ (closeTab (run ops) i).activeTabId = none) := by
  have h := inv_run ops
  refine ⟨active_count_le_one h, ?_, ?_⟩
  · intro sn hsn hactive
    obtain ⟨t, ht, hteq⟩ := List.mem_map.mp hsn
    rw [← hteq] at hactive
    simp only [decide_eq_true_eq] at hactive
    rw [← hteq]
    exact hactive
  · intro i hmap
    cases htabs : (run ops).tabs with
    | nil => rw [htabs] at hmap; simp at hmap
    | cons t rest =>
      rw [htabs] at hmap
      simp only [List.map_cons, List.cons.injEq] at hmap
      obtain ⟨hti, hrest⟩ := hmap
      have hrest' : rest = [] := List.map_eq_nil_iff.mp hrest
      subst hrest'
      have hfind : findTab (run ops).tabs i = some t := by
        rw [htabs]
        exact List.find?_cons_of_pos _ (by simp [hti])
      have hfilter : (run ops).tabs.filter (fun u => u.id ≠ i) = [] := by
        rw [htabs]
        simp [hti]
      have hres : closeTab (run ops) i
          = { tabs := [], activeTabId := none, nextTabId := (run ops).nextTabId } := by
        simp only [closeTab, hfind, hfilter, List.map_nil, List.getLast?_nil]
        by_cases hact : (run ops).activeTabId = some i
        · rw [if_pos hact]
        · rw [if_neg hact]
          have hnone : (run ops).activeTabId = none := by
            cases hacteq : (run ops).activeTabId with
            | none => rfl
            | some j =>
              have hj : j ∈ (run ops).tabs.map Tab.id := h.activeMem j hacteq
              rw [htabs] at hj
              simp only [List.map_cons, List.map_nil, List.mem_singleton] at hj
              exact absurd (by rw [hacteq, hj, hti]) hact
          rw [hnone]
      rw [hres]
      exact ⟨rfl, rfl⟩

/-- Closed witness for C1: after opening one tab and closing it, the
`get-tabs` output has zero active rows and the active pointer is null. -/
theorem single_active_invariant_witness :
    (getTabs (closeTab (run [Op.create ""]) 1)).countP (fun sn => sn.active) = 0
    ∧ (closeTab (run [Op.create ""]) 1).activeTabId = none :=
  (single_active_invariant [Op.create ""]).2.2 1 (by decide)

/-- Claim C2: in every reachable state, closing the active tab leaves no
active tab when no other tab remains, and otherwise activates the
remaining tab with the greatest id. -/
theorem activation_fallback (ops : List Op) (i : Nat)
    (hact : (run ops).activeTabId = some i) :
    ((run ops).tabs.filter (fun t => t.id ≠ i) = [] →
        (closeTab (run ops) i).activeTabId = none)
    ∧ ((run ops).tabs.filter (fun t => t.id ≠ i) ≠ [] →
        ∃ m, (closeTab (run ops) i).activeTabId = some m
          ∧ m ∈ ((run ops).tabs.filter (fun t => t.id ≠ i)).map Tab.id
          ∧ ∀ j ∈ ((run ops).tabs.filter (fun t => t.id ≠ i)).map Tab.id, j ≤ m) := by
  have h := inv_run ops
  have hmem : i ∈ (run ops).tabs.map Tab.id := h.activeMem i hact
  obtain ⟨t, hfind⟩ : ∃ t, findTab (run ops).tabs i = some t :=
    Option.isSome_iff_exists.mp (findTab_isSome_of_mem hmem)
  constructor
  · intro hemp
    simp only [closeTab, hfind, hemp, List.map_nil, List.getLast?_nil]
    rw [if_pos hact]
  · intro hne
    have hne' : ((run ops).tabs.filter (fun t => t.id ≠ i)).map Tab.id ≠ [] := by
      simpa using hne
    obtain ⟨m, hlast⟩ : ∃ m,
        (((run ops).tabs.filter (fun t => t.id ≠ i)).map Tab.id).getLast? = some m := by
      cases hl : (((run ops).tabs.filter (fun t => t.id ≠ i)).map Tab.id).getLast? with
      | none => exact absurd (List.getLast?_eq_none_iff.mp hl) hne'
      | some m => exact ⟨m, rfl⟩
    have hm : m ∈ ((run ops).tabs.filter (fun t => t.id ≠ i)).map Tab.id :=
      mem_of_getLast?_eq_some hlast
    have hsorted : (((run ops).tabs.filter (fun t => t.id ≠ i)).map Tab.id).Sorted (· < ·) :=
      List.pairwise_map.mpr (h.sorted.filter _)
    refine ⟨m, ?_, hm, fun j hj => le_of_getLast?_sorted hsorted hlast j hj⟩
    simp only [closeTab, hfind]
    rw [if_pos hact, hlast]
    exact activeTabId_switchToTab_of_mem hm

/-- Closed witness for C2: closing the only open tab leaves the active
pointer null. -/
theorem activation_fallback_witness :
    (closeTab (run [Op.create ""]) 1).activeTabId = none :=
  (activation_fallback [Op.create ""] 1 (by decide)).1 (by decide)

/-- Counterexample to C4 as stated: with one tab of id 1 open, id 99 names
no tab, yet both the `switch-tab` and `close-tab` IPC handlers reply
`\x7b success: true \x7d` — the result indicates success, not failure. -/
theorem unknown_id_reports_success :
    99 ∉ (run [Op.create ""]).tabs.map Tab.id
    ∧ (switchTabHandler (run [Op.create ""]) 99).2.success = true
    ∧ (closeTabHandler (run [Op.create ""]) 99).2.success = true := by
  decide

/-- Claim C4 (amended): for every id not naming an existing tab,
`switchToTab` and `closeTab` leave the whole manager state unchanged, and
the corresponding IPC handlers return `\x7b success: true \x7d` — the
failure is silent, not reported. -/
theorem unknown_id_noop (s : MgrState) (id : Nat)
    (h : id ∉ s.tabs.map Tab.id) :
    switchToTab s id = s ∧ closeTab s id = s
    ∧ switchTabHandler s id = (s, { success := true })
    ∧ closeTabHandler s id = (s, { success := true }) := by
  have h1 := switchToTab_of_not_mem h
  have h2 := closeTab_of_not_mem h
  exact ⟨h1, h2, by simp [switchTabHandler, h1], by simp [closeTabHandler, h2]⟩

/-- Closed witness for C4 (amended), at the state with one tab and the
unknown id 99. -/
theorem unknown_id_noop_witness :
    switchToTab (run [Op.create ""]) 99 = run [Op.create ""]
    ∧ closeTab (run [Op.create ""]) 99 = run [Op.create ""]
    ∧ switchTabHandler (run [Op.create ""]) 99 = (run [Op.create ""], { success := true })
    ∧ closeTabHandler (run [Op.create ""]) 99 = (run [Op.create ""], { success := true }) :=
  unknown_id_noop (run [Op.create ""]) 99 (by decide)

theorem nextTabId_switchToTab (s : MgrState) (id : Nat) :
    (switchToTab s id).nextTabId = s.nextTabId := by
  cases hfind : findTab s.tabs id <;> simp [switchToTab, hfind]

theorem nextTabId_closeTab (s : MgrState) (id : Nat) :
    (closeTab s id).nextTabId = s.nextTabId := by
  cases hfind : findTab s.tabs id with
  | none => simp [closeTab, hfind]
  | some t =>
    simp only [closeTab, hfind]
    by_cases hact : s.activeTabId = some id
    · rw [if_pos hact]
      cases hlast : ((s.tabs.filter (fun t => t.id ≠ id)).map Tab.id).getLast? with
      | none => rfl
      | some lastId => exact nextTabId_switchToTab _ _
    · rw [if_neg hact]

theorem nextTabId_createTab (s : MgrState) (u : String) :
    (createTab s u).nextTabId = s.nextTabId + 1 := by
  unfold createTab
  rw [nextTabId_switchToTab]

theorem le_assignedFrom :
    ∀ (ops : List Op) (s : MgrState) (x : Nat),
      x ∈ assignedFrom s ops → s.nextTabId ≤ x := by
  intro ops
  induction ops with
  | nil => intro s x hx; simp [assignedFrom] at hx
  | cons op ops ih =>
    intro s x hx
    cases op with
    | create u =>
      rw [assignedFrom] at hx
      rcases List.mem_cons.mp hx with rfl | hx'
      · exact le_refl _
      · have := ih (createTab s u) x hx'
        rw [nextTabId_createTab] at this
        omega
    | activate i =>
      have := ih (switchToTab s i) x (by rw [assignedFrom] at hx; exact hx)
      rw [nextTabId_switchToTab] at this
      exact this
    | close i =>
      have := ih (closeTab s i) x (by rw [assignedFrom] at hx; exact hx)
      rw [nextTabId_closeTab] at this
      exact this

theorem sorted_assignedFrom :
    ∀ (ops : List Op) (s : MgrState), (assignedFrom s ops).Sorted (· < ·) := by
  intro ops
  induction ops with
  | nil => intro s; simp [assignedFrom]
  | cons op ops ih =>
    intro s
    cases op with
    | create u =>
      rw [assignedFrom]
      refine List.sorted_cons.mpr ⟨?_, ih _⟩
      intro b hb
      have := le_assignedFrom ops (createTab s u) b hb
      rw [nextTabId_createTab] at this
      omega
    | activate i =>
      rw [assignedFrom]
      exact ih _
    | close i =>
      rw [assignedFrom]
      exact ih _

/-- Claim C5: over any operation sequence in one process lifetime, the ids
assigned by successive `createTab` calls are strictly increasing, and no
id is ever assigned twice, even after the tab holding it was closed. -/
theorem id_monotonicity (ops : List Op) :
    (assignedIds ops).Sorted (· < ·) ∧ (assignedIds ops).Nodup := by
  have hs := sorted_assignedFrom ops initState
  exact ⟨hs, List.Pairwise.imp (fun hab => Nat.ne_of_lt hab) hs⟩

/-- Claim C10: in every reachable state, the `get-tabs` output lists the
tab snapshots in strictly increasing id order. -/
theorem list_order (ops : List Op) :
    ((getTabs (run ops)).map TabInfo.id).Sorted (· < ·) := by
  have h := keys_sorted (inv_run ops)
  have heq : (getTabs (run ops)).map TabInfo.id = (run ops).tabs.map Tab.id := by
    simp [getTabs, List.map_map, Function.comp]
  rw [heq]
  exact h

/-- Claim C6: framing an audio payload yields `0x01` followed by exactly
the payload, framing imagery yields `0x02` followed by exactly the
payload, and decoding a framed message recovers the discriminator and an
identical payload. -/
theorem framing_round_trip (p : List Nat) :
    decodeFrame (encodeAudioFrame p) = some (0x01, p)
    ∧ decodeFrame (encodeImageryFrame p) = some (0x02, p)
    ∧ encodeAudioFrame p = 0x01 :: p
    ∧ encodeImageryFrame p = 0x02 :: p :=
  ⟨rfl, rfl, rfl, rfl⟩

/-- Counterexample to C3 as stated: with no active tab, `execute-action`
fails with the fixed string `'No active tab'`, which is not the string
`"no active surface"` the claim names; no effect is dispatched. -/
theorem no_active_error_counterexample :
    (executeAction none { type := "click", x := some 10, y := some 10 }).1
      = { success := false, error := some "No active tab", text := none }
    ∧ (executeAction none { type := "click", x := some 10, y := some 10 }).2 = []
    ∧ (some "No active tab" : Option String) ≠ some "no active surface" :=
  ⟨rfl, rfl, by decide⟩

/-- Claim C3 (amended): for every action request, executing with no active
tab returns `\x7b success: false, error: 'No active tab' \x7d` and
dispatches no input event or evaluation. -/
theorem no_active_tab_failure (a : ActionReq) :
    executeAction none a
      = ({ success := false, error := some "No active tab", text := none }, []) :=
  rfl

/-- Claim C7: `extract-text` on an active tab succeeds and returns exactly
the first `min(L, 5000)` characters of the document text of length `L`. -/
theorem extract_text_bound (c : TabContent) :
    executeAction (some c) { type := "extract-text" }
      = ({ success := true, error := none, text := some (c.docText.take 5000) },
         [Effect.extractTextEval])
    ∧ (c.docText.take 5000).length = min c.docText.length 5000
    ∧ ∃ rest, c.docText = c.docText.take 5000 ++ rest := by
  refine ⟨rfl, ?_, ⟨c.docText.drop 5000, (List.take_append_drop _ _).symm⟩⟩
  rw [List.length_take]
  omega

/-- Counterexample to C8 as stated: an explicitly specified amount of `0`
scrolls by 500 pixels, not 0, because `action.amount || 500` treats the
falsy `0` like an absent amount. -/
theorem scroll_zero_amount_counterexample :
    (executeAction (some { docText := [], canGoBack := false, canGoForward := false })
        { type := "scroll", amount := some 0 }).2 = [Effect.scrollBy 500]
    ∧ Effect.scrollBy 500 ≠ Effect.scrollBy 0 :=
  ⟨rfl, by decide⟩

/-- Claim C8 (amended): `scroll` scrolls vertically by
`amountOr500 amount` pixels — the given amount when specified and nonzero,
500 when unspecified or zero — negated exactly when the direction is
`"up"`. -/
theorem scroll_semantics (c : TabContent) (dir : Option String) (amt : Option Int)
    (v : Int) (hv : v ≠ 0) :
    executeAction (some c) { type := "scroll", direction := dir, amount := amt }
      = ({ success := true, error := none, text := none },
         [Effect.scrollBy (if dir = some "up" then -(amountOr500 amt) else amountOr500 amt)])
    ∧ amountOr500 none = 500
    ∧ amountOr500 (some 0) = 500
    ∧ amountOr500 (some v) = v := by
  refine ⟨rfl, rfl, rfl, ?_⟩
  simp [amountOr500, hv]

/-- Closed witness for C8 (amended): scrolling up by an explicit 7 yields
a single vertical scroll of −7 pixels. -/
theorem scroll_semantics_witness :
    executeAction (some { docText := [], canGoBack := false, canGoForward := false })
        { type := "scroll", direction := some "up", amount := some 7 }
      = ({ success := true, error := none, text := none }, [Effect.scrollBy (-7)]) := by
  have h := scroll_semantics
    { docText := [], canGoBack := false, canGoForward := false }
    (some "up") (some 7) 7 (by decide)
  simpa [amountOr500] using h.1

/-- Claim C9: `type` synthesizes, for each character of the text in input
order, a key-down, character, key-up triple, in that order; empty text
synthesizes no events and still succeeds. -/
theorem type_semantics (c : TabContent) (t : String) :
    executeAction (some c) { type := "type", text := some t }
      = ({ success := true, error := none, text := none }, typeEvents t.data)
    ∧ typeEvents [] = []
    ∧ (∀ ch rest, typeEvents (ch :: rest)
        = Effect.input (InputEvent.keyDown ch.toString)
          :: Effect.input (InputEvent.charInput ch.toString)
          :: Effect.input (InputEvent.keyUp ch.toString)
          :: typeEvents rest)
    ∧ (t = "" →
        (executeAction (some c) { type := "type", text := some t }).2 = []) := by
  have hmain : executeAction (some c) { type := "type", text := some t }
      = ({ success := true, error := none, text := none }, typeEvents t.data) := by
    by_cases he : t = ""
    · subst he
      rfl
    · have he' : t.isEmpty = false := by
        rw [← Bool.not_eq_true]
        simp [String.isEmpty_iff, he]
      have hstep : executeAction (some c) { type := "type", text := some t }
          = if t.isEmpty
            then ({ success := true, error := none, text := none }, ([] : List Effect))
            else ({ success := true, error := none, text := none }, typeEvents t.data) :=
        rfl
      rw [hstep, he']
      simp
  refine ⟨hmain, rfl, fun ch rest => rfl, fun ht => ?_⟩
  rw [hmain]
  subst ht
  rfl

/-- Closed witness for C9: typing the empty string dispatches no events. -/
theorem type_semantics_witness :
    (executeAction (some { docText := [], canGoBack := false, canGoForward := false })
        { type := "type", text := some "" }).2 = [] :=
  (type_semantics { docText := [], canGoBack := false, canGoForward := false } "").2.2.2 rfl

end Pulse
